import Mathlib

/-!
Shallow embedding of the numerical core of PsychroLib (src/c/psychrolib.c,
version 2.5.0) over the real numbers, together with theorems checking the
natural-language specification of the library against the code.

The embedded fragment consists of the saturation-vapor-pressure correlation
`GetSatVapPres` and its analytic log-derivative `dLnPws_`, the Newton-Raphson
dew-point solver `GetTDewPointFromVapPres`, the bisection wet-bulb solver
`GetTWetBulbFromHumRatio`, and the closed-form collaborators they call.
C doubles are modelled as real numbers; the `ASSERT` macro (which aborts the
process in C) is modelled by returning `Except.error` with one error value per
distinct assertion site; the `MAX_ITER_COUNT` iteration cap is modelled by
structural fuel.  The process-wide unit-system global is passed as an explicit
`UnitSystem` parameter (the `UNDEFINED` state, in which every entry point
aborts before computing anything, is outside the claims considered here).
-/

namespace Psychro

open Real

noncomputable section

open scoped Classical

/-- System of units, `enum UnitSystem {IP, SI}` once set (UNDEFINED excluded). -/
inductive UnitSystem : Type
  | IP : UnitSystem
  | SI : UnitSystem
deriving DecidableEq

/-- One error value per distinct failure site modelled from the C `ASSERT` /
iteration-cap aborts. -/
inductive PsyError : Type
  | tempOutOfRange : PsyError      -- GetSatVapPres: dry-bulb outside correlation bounds
  | vapPresOutOfRange : PsyError   -- GetTDewPointFromVapPres: VapPres outside attainable range
  | negVapPres : PsyError          -- VapPres >= 0 assertions
  | negHumRatio : PsyError         -- HumRatio >= 0 assertions
  | wetBulbAboveDryBulb : PsyError -- GetHumRatioFromTWetBulb: TWetBulb <= TDryBulb assertion
  | convergence : PsyError         -- MAX_ITER_COUNT exceeded in a solver loop
deriving DecidableEq

/-- `#define ZERO_FAHRENHEIT_AS_RANKINE 459.67` -/
def ZERO_FAHRENHEIT_AS_RANKINE : ℝ := 459.67

/-- `#define ZERO_CELSIUS_AS_KELVIN 273.15` -/
def ZERO_CELSIUS_AS_KELVIN : ℝ := 273.15

/-- `#define MIN_HUM_RATIO 1e-7` (named `MIN_HUM_RATIO` in the C source). -/
def minHumRatio : ℝ := 1e-7

/-- `#define MAX_ITER_COUNT 100` -/
def MAX_ITER_COUNT : ℕ := 100

/-- `#define FREEZING_POINT_WATER_IP 32.0` -/
def FREEZING_POINT_WATER_IP : ℝ := 32.0

/-- `#define FREEZING_POINT_WATER_SI 0.0` -/
def FREEZING_POINT_WATER_SI : ℝ := 0.0

/-- `#define TRIPLE_POINT_WATER_IP 32.018` -/
def TRIPLE_POINT_WATER_IP : ℝ := 32.018

/-- `#define TRIPLE_POINT_WATER_SI 0.01` -/
def TRIPLE_POINT_WATER_SI : ℝ := 0.01

/-- Triple point of water in the active unit system. -/
def triplePoint : UnitSystem → ℝ
  | .IP => TRIPLE_POINT_WATER_IP
  | .SI => TRIPLE_POINT_WATER_SI

/-- Freezing point of water in the active unit system. -/
def freezingPoint : UnitSystem → ℝ
  | .IP => FREEZING_POINT_WATER_IP
  | .SI => FREEZING_POINT_WATER_SI

/-- Lower bound of the validity domain of the saturation correlation
(`BOUNDS[0]` in `GetTDewPointFromVapPres`, and the lower end asserted by
`GetSatVapPres`). -/
def boundLo : UnitSystem → ℝ
  | .IP => -148
  | .SI => -100

/-- Upper bound of the validity domain of the saturation correlation
(`BOUNDS[1]` in `GetTDewPointFromVapPres`, and the upper end asserted by
`GetSatVapPres`). -/
def boundHi : UnitSystem → ℝ
  | .IP => 392
  | .SI => 200

/-- `PSYCHROLIB_TOLERANCE` as set by `SetUnitSystem`. -/
def tolerance : UnitSystem → ℝ
  | .IP => 0.001 * 9 / 5
  | .SI => 0.001

/-- `GetTRankineFromTFahrenheit` -/
def GetTRankineFromTFahrenheit (T_F : ℝ) : ℝ := T_F + ZERO_FAHRENHEIT_AS_RANKINE

/-- `GetTKelvinFromTCelsius` -/
def GetTKelvinFromTCelsius (T_C : ℝ) : ℝ := T_C + ZERO_CELSIUS_AS_KELVIN

/-- Absolute temperature used by the correlation (°R for IP, K for SI). -/
def absT : UnitSystem → ℝ → ℝ
  | .IP, t => GetTRankineFromTFahrenheit t
  | .SI, t => GetTKelvinFromTCelsius t

/-- The `LnPws` expression of `GetSatVapPres` for the branch
`TDryBulb <= TRIPLE_POINT_WATER_*`. -/
def lnPwsBelow (u : UnitSystem) (TDryBulb : ℝ) : ℝ :=
  match u with
  | .IP =>
    let T := GetTRankineFromTFahrenheit TDryBulb ;
    (-1.0214165e4 / T - 4.8932428 - 5.3765794e-3 * T + 1.9202377e-7 * T * T
      + 3.5575832e-10 * T ^ 3 - 9.0344688e-14 * T ^ 4 + 4.1635019 * Real.log T)
  | .SI =>
    let T := GetTKelvinFromTCelsius TDryBulb ;
    (-5.6745359e3 / T + 6.3925247 - 9.677843e-3 * T + 6.2215701e-7 * T * T
      + 2.0747825e-9 * T ^ 3 - 9.484024e-13 * T ^ 4 + 4.1635019 * Real.log T)

/-- The `LnPws` expression of `GetSatVapPres` for the branch
`TDryBulb > TRIPLE_POINT_WATER_*`. -/
def lnPwsAbove (u : UnitSystem) (TDryBulb : ℝ) : ℝ :=
  match u with
  | .IP =>
    let T := GetTRankineFromTFahrenheit TDryBulb ;
    (-1.0440397e4 / T - 1.1294650e1 - 2.7022355e-2 * T + 1.2890360e-5 * T * T
      - 2.4780681e-9 * T ^ 3 + 6.5459673 * Real.log T)
  | .SI =>
    let T := GetTKelvinFromTCelsius TDryBulb ;
    (-5.8002206e3 / T + 1.3914993 - 4.8640239e-2 * T + 4.1764768e-5 * T * T
      - 1.4452093e-8 * T ^ 3 + 6.5459673 * Real.log T)

/-- `LnPws` as computed by `GetSatVapPres`: branch split at the triple point. -/
def LnPws (u : UnitSystem) (TDryBulb : ℝ) : ℝ :=
  if TDryBulb ≤ triplePoint u then lnPwsBelow u TDryBulb else lnPwsAbove u TDryBulb

/-- The value `exp(LnPws)` returned by `GetSatVapPres` (before the domain
assertion is taken into account). -/
def satVapPresFormula (u : UnitSystem) (TDryBulb : ℝ) : ℝ :=
  Real.exp (LnPws u TDryBulb)

/-- `GetSatVapPres`, with the C domain assertion modelled as an error. -/
def GetSatVapPres (u : UnitSystem) (TDryBulb : ℝ) : Except PsyError ℝ :=
  if boundLo u ≤ TDryBulb ∧ TDryBulb ≤ boundHi u then
    .ok (satVapPresFormula u TDryBulb)
  else .error .tempOutOfRange

/-- The `dLnPws` expression of `dLnPws_` for the branch
`TDryBulb <= TRIPLE_POINT_WATER_*`. -/
def dLnPwsBelow (u : UnitSystem) (TDryBulb : ℝ) : ℝ :=
  match u with
  | .IP =>
    let T := GetTRankineFromTFahrenheit TDryBulb ;
    (1.0214165e4 / T ^ 2 - 5.3765794e-3 + 2 * 1.9202377e-7 * T
      + 3 * 3.5575832e-10 * T ^ 2 - 4 * 9.0344688e-14 * T ^ 3 + 4.1635019 / T)
  | .SI =>
    let T := GetTKelvinFromTCelsius TDryBulb ;
    (5.6745359e3 / T ^ 2 - 9.677843e-3 + 2 * 6.2215701e-7 * T
      + 3 * 2.0747825e-9 * T ^ 2 - 4 * 9.484024e-13 * T ^ 3 + 4.1635019 / T)

/-- The `dLnPws` expression of `dLnPws_` for the branch
`TDryBulb > TRIPLE_POINT_WATER_*`. -/
def dLnPwsAbove (u : UnitSystem) (TDryBulb : ℝ) : ℝ :=
  match u with
  | .IP =>
    let T := GetTRankineFromTFahrenheit TDryBulb ;
    (1.0440397e4 / T ^ 2 - 2.7022355e-2 + 2 * 1.2890360e-5 * T
      - 3 * 2.4780681e-9 * T ^ 2 + 6.5459673 / T)
  | .SI =>
    let T := GetTKelvinFromTCelsius TDryBulb ;
    (5.8002206e3 / T ^ 2 - 4.8640239e-2 + 2 * 4.1764768e-5 * T
      - 3 * 1.4452093e-8 * T ^ 2 + 6.5459673 / T)

/-- `dLnPws_`: derivative of the natural log of the saturation vapor pressure
(no domain assertion in the C source). -/
def dLnPws_ (u : UnitSystem) (TDryBulb : ℝ) : ℝ :=
  if TDryBulb ≤ triplePoint u then dLnPwsBelow u TDryBulb else dLnPwsAbove u TDryBulb

/-- One Newton-Raphson update of `GetTDewPointFromVapPres`: the new estimate,
bounded into the domain of validity (`max` with `BOUNDS[0]` then `min` with
`BOUNDS[1]`), as a function of the previous iterate. -/
def newtonNext (u : UnitSystem) (lnVP TDewPoint_iter : ℝ) : ℝ :=
  min (max (TDewPoint_iter -
      (Real.log (satVapPresFormula u TDewPoint_iter) - lnVP) / dLnPws_ u TDewPoint_iter)
    (boundLo u)) (boundHi u)

/-- The `do`-`while` loop of `GetTDewPointFromVapPres`.  Each call of
`GetSatVapPres` keeps its domain assertion; the fuel models the
`index <= MAX_ITER_COUNT` assertion (error once 100 iterations are exhausted
without the successive-guess change dropping to the tolerance). -/
def dewPointLoop (u : UnitSystem) (lnVP : ℝ) : ℕ → ℝ → Except PsyError ℝ
  | 0, _ => .error .convergence
  | fuel + 1, TDewPoint_iter =>
    match GetSatVapPres u TDewPoint_iter with
    | .error e => .error e
    | .ok _ =>
      let TDewPoint := newtonNext u lnVP TDewPoint_iter
      if |TDewPoint - TDewPoint_iter| ≤ tolerance u then .ok TDewPoint
      else dewPointLoop u lnVP fuel TDewPoint

/-- `GetTDewPointFromVapPres`: Newton-Raphson inversion of `GetSatVapPres`,
initial guess `TDryBulb`, final result `min(TDewPoint, TDryBulb)`.  The C
bounds assertion evaluates `GetSatVapPres(BOUNDS[0])` and
`GetSatVapPres(BOUNDS[1])`; those two calls are at in-bounds temperatures and
cannot fail, so they are modelled by the unchecked value
`satVapPresFormula`. -/
def GetTDewPointFromVapPres (u : UnitSystem) (TDryBulb VapPres : ℝ) : Except PsyError ℝ :=
  if satVapPresFormula u (boundLo u) ≤ VapPres ∧ VapPres ≤ satVapPresFormula u (boundHi u) then
    match dewPointLoop u (Real.log VapPres) MAX_ITER_COUNT TDryBulb with
    | .ok TDewPoint => .ok (min TDewPoint TDryBulb)
    | .error e => .error e
  else .error .vapPresOutOfRange

/-- `GetHumRatioFromVapPres` -/
def GetHumRatioFromVapPres (VapPres Pressure : ℝ) : Except PsyError ℝ :=
  if 0 ≤ VapPres then
    .ok (max (0.621945 * VapPres / (Pressure - VapPres)) minHumRatio)
  else .error .negVapPres

/-- `GetVapPresFromHumRatio` -/
def GetVapPresFromHumRatio (HumRatio Pressure : ℝ) : Except PsyError ℝ :=
  if 0 ≤ HumRatio then
    let BoundedHumRatio := max HumRatio minHumRatio
    .ok (Pressure * BoundedHumRatio / (0.621945 + BoundedHumRatio))
  else .error .negHumRatio

/-- `GetTDewPointFromHumRatio` -/
def GetTDewPointFromHumRatio (u : UnitSystem) (TDryBulb HumRatio Pressure : ℝ) :
    Except PsyError ℝ :=
  if 0 ≤ HumRatio then
    match GetVapPresFromHumRatio HumRatio Pressure with
    | .ok VapPres => GetTDewPointFromVapPres u TDryBulb VapPres
    | .error e => .error e
  else .error .negHumRatio

/-- `GetSatHumRatio` -/
def GetSatHumRatio (u : UnitSystem) (TDryBulb Pressure : ℝ) : Except PsyError ℝ :=
  match GetSatVapPres u TDryBulb with
  | .ok SatVaporPres => .ok (max (0.621945 * SatVaporPres / (Pressure - SatVaporPres)) minHumRatio)
  | .error e => .error e

/-- `GetHumRatioFromTWetBulb` -/
def GetHumRatioFromTWetBulb (u : UnitSystem) (TDryBulb TWetBulb Pressure : ℝ) :
    Except PsyError ℝ :=
  if TWetBulb ≤ TDryBulb then
    match GetSatHumRatio u TWetBulb Pressure with
    | .ok Wsstar =>
      .ok (max
        (match u with
         | .IP =>
           if FREEZING_POINT_WATER_IP ≤ TWetBulb then
             ((1093 - 0.556 * TWetBulb) * Wsstar - 0.240 * (TDryBulb - TWetBulb))
               / (1093 + 0.444 * TDryBulb - TWetBulb)
           else
             ((1220 - 0.04 * TWetBulb) * Wsstar - 0.240 * (TDryBulb - TWetBulb))
               / (1220 + 0.444 * TDryBulb - 0.48 * TWetBulb)
         | .SI =>
           if FREEZING_POINT_WATER_SI ≤ TWetBulb then
             ((2501 - 2.326 * TWetBulb) * Wsstar - 1.006 * (TDryBulb - TWetBulb))
               / (2501 + 1.86 * TDryBulb - 4.186 * TWetBulb)
           else
             ((2830 - 0.24 * TWetBulb) * Wsstar - 1.006 * (TDryBulb - TWetBulb))
               / (2830 + 1.86 * TDryBulb - 2.1 * TWetBulb))
        minHumRatio)
    | .error e => .error e
  else .error .wetBulbAboveDryBulb

/-- The bisection loop of `GetTWetBulbFromHumRatio`, carrying the bracket
`[TWetBulbInf, TWetBulbSup]`; the current guess `TWetBulb` is always the
midpoint of the current bracket, so it is recomputed from the bracket.  The
fuel models the `index <= MAX_ITER_COUNT` assertion. -/
def wetBulbLoop (u : UnitSystem) (TDryBulb BoundedHumRatio Pressure : ℝ) :
    ℕ → ℝ → ℝ → Except PsyError ℝ
  | fuel, TWetBulbInf, TWetBulbSup =>
    if TWetBulbSup - TWetBulbInf ≤ tolerance u then .ok ((TWetBulbInf + TWetBulbSup) / 2)
    else
      match fuel with
      | 0 => .error .convergence
      | fuel + 1 =>
        match GetHumRatioFromTWetBulb u TDryBulb ((TWetBulbInf + TWetBulbSup) / 2) Pressure with
        | .error e => .error e
        | .ok Wstar =>
          if BoundedHumRatio < Wstar then
            wetBulbLoop u TDryBulb BoundedHumRatio Pressure fuel
              TWetBulbInf ((TWetBulbInf + TWetBulbSup) / 2)
          else
            wetBulbLoop u TDryBulb BoundedHumRatio Pressure fuel
              ((TWetBulbInf + TWetBulbSup) / 2) TWetBulbSup

/-- `GetTWetBulbFromHumRatio`: bisection between the dew point of the bounded
humidity ratio and the dry-bulb temperature. -/
def GetTWetBulbFromHumRatio (u : UnitSystem) (TDryBulb HumRatio Pressure : ℝ) :
    Except PsyError ℝ :=
  if 0 ≤ HumRatio then
    let BoundedHumRatio := max HumRatio minHumRatio
    match GetTDewPointFromHumRatio u TDryBulb BoundedHumRatio Pressure with
    | .ok TDewPoint => wetBulbLoop u TDryBulb BoundedHumRatio Pressure MAX_ITER_COUNT TDewPoint TDryBulb
    | .error e => .error e
  else .error .negHumRatio

/-- Auxiliary predicate: property `p` holds of the value whenever the
computation returns one (vacuously true on an error). -/
def onOk (e : Except PsyError ℝ) (p : ℝ → Prop) : Prop :=
  match e with
  | .ok r => p r
  | .error _ => True

theorem onOk_ok {r : ℝ} {p : ℝ → Prop} (h : p r) : onOk (.ok r) p := h

theorem onOk_error {e : PsyError} {p : ℝ → Prop} : onOk (.error e) p := trivial

theorem boundLo_le_boundHi (u : UnitSystem) : boundLo u ≤ boundHi u := by
  cases u <;> norm_num [boundLo, boundHi]

theorem tolerance_pos (u : UnitSystem) : 0 < tolerance u := by
  cases u <;> norm_num [tolerance]

theorem newtonNext_mem (u : UnitSystem) (lnVP t : ℝ) :
    boundLo u ≤ newtonNext u lnVP t ∧ newtonNext u lnVP t ≤ boundHi u := by
  unfold newtonNext
  constructor
  · exact le_min (le_max_right _ _) (boundLo_le_boundHi u)
  · exact min_le_right _ _

theorem dewPointLoop_zero (u : UnitSystem) (lnVP t : ℝ) :
    dewPointLoop u lnVP 0 t = .error .convergence := rfl

theorem dewPointLoop_succ (u : UnitSystem) (lnVP t : ℝ) (fuel : ℕ) :
    dewPointLoop u lnVP (fuel + 1) t =
      match GetSatVapPres u t with
      | .error e => .error e
      | .ok _ =>
        if |newtonNext u lnVP t - t| ≤ tolerance u then .ok (newtonNext u lnVP t)
        else dewPointLoop u lnVP fuel (newtonNext u lnVP t) := rfl

theorem GetSatVapPres_ok_iff (u : UnitSystem) (t : ℝ) {p : ℝ} :
    GetSatVapPres u t = .ok p ↔
      (boundLo u ≤ t ∧ t ≤ boundHi u) ∧ p = satVapPresFormula u t := by
  unfold GetSatVapPres
  split
  · simp only [Except.ok.injEq]
    constructor
    · intro h; exact ⟨by assumption, h.symm⟩
    · intro h; exact h.2.symm
  · simp only [reduceCtorEq, false_iff, not_and]
    intro h; exact absurd h (by assumption)

theorem dewPointLoop_ok_mem (u : UnitSystem) (lnVP : ℝ) :
    ∀ fuel t r, dewPointLoop u lnVP fuel t = .ok r →
      boundLo u ≤ r ∧ r ≤ boundHi u := by
  intro fuel
  induction fuel with
  | zero => intro t r h; rw [dewPointLoop_zero] at h; exact absurd h (by simp)
  | succ n ih =>
    intro t r h
    rw [dewPointLoop_succ] at h
    cases hs : GetSatVapPres u t with
    | error e => rw [hs] at h; exact absurd h (by simp)
    | ok p =>
      rw [hs] at h
      by_cases hc : |newtonNext u lnVP t - t| ≤ tolerance u
      · rw [if_pos hc] at h
        obtain rfl : newtonNext u lnVP t = r := by simpa using h
        exact newtonNext_mem u lnVP t
      · rw [if_neg hc] at h
        exact ih _ _ h

theorem dewPointLoop_ok_start (u : UnitSystem) (lnVP : ℝ) (fuel : ℕ) (t r : ℝ)
    (h : dewPointLoop u lnVP fuel t = .ok r) : boundLo u ≤ t ∧ t ≤ boundHi u := by
  cases fuel with
  | zero => rw [dewPointLoop_zero] at h; exact absurd h (by simp)
  | succ n =>
    rw [dewPointLoop_succ] at h
    cases hs : GetSatVapPres u t with
    | error e => rw [hs] at h; exact absurd h (by simp)
    | ok p => exact ((GetSatVapPres_ok_iff u t).mp hs).1

theorem getTDewPointFromVapPres_ok_prop (u : UnitSystem) (TDryBulb VapPres : ℝ) :
    onOk (GetTDewPointFromVapPres u TDryBulb VapPres)
      (fun r => r ≤ TDryBulb ∧ boundLo u ≤ r ∧ r ≤ boundHi u) := by
  unfold GetTDewPointFromVapPres
  split
  · cases hs : dewPointLoop u (Real.log VapPres) MAX_ITER_COUNT TDryBulb with
    | error e => exact onOk_error
    | ok t =>
      refine onOk_ok ?_
      have hmem := dewPointLoop_ok_mem u (Real.log VapPres) _ _ _ hs
      have hstart := dewPointLoop_ok_start u (Real.log VapPres) _ _ _ hs
      exact ⟨min_le_right _ _, le_min hmem.1 hstart.1, le_trans (min_le_left _ _) hmem.2⟩
  · exact onOk_error

/-- C3: whenever `GetTDewPointFromVapPres` returns normally, the returned
dew-point temperature is at most the supplied dry-bulb temperature (enforced
by the final `min`), and it lies within the correlation validity bounds of the
active unit system, every Newton iterate having been clamped into those
bounds. -/
theorem dewPoint_le_dryBulb_and_in_bounds (u : UnitSystem) (TDryBulb VapPres : ℝ) :
    onOk (GetTDewPointFromVapPres u TDryBulb VapPres)
      (fun r => r ≤ TDryBulb ∧ boundLo u ≤ r ∧ r ≤ boundHi u) :=
  getTDewPointFromVapPres_ok_prop u TDryBulb VapPres

theorem getTDewPointFromHumRatio_ok_le (u : UnitSystem) (TDryBulb HumRatio Pressure : ℝ) :
    onOk (GetTDewPointFromHumRatio u TDryBulb HumRatio Pressure) (fun r => r ≤ TDryBulb) := by
  unfold GetTDewPointFromHumRatio
  split
  · cases hv : GetVapPresFromHumRatio HumRatio Pressure with
    | error e => dsimp only; exact onOk_error
    | ok vp =>
      dsimp only
      have := getTDewPointFromVapPres_ok_prop u TDryBulb vp
      cases hd : GetTDewPointFromVapPres u TDryBulb vp with
      | error e => exact onOk_error
      | ok r => rw [hd] at this; exact onOk_ok this.1
  · exact onOk_error

theorem wetBulbLoop_eq (u : UnitSystem) (TDryBulb BoundedHumRatio Pressure : ℝ)
    (fuel : ℕ) (TWetBulbInf TWetBulbSup : ℝ) :
    wetBulbLoop u TDryBulb BoundedHumRatio Pressure fuel TWetBulbInf TWetBulbSup =
      if TWetBulbSup - TWetBulbInf ≤ tolerance u then
        .ok ((TWetBulbInf + TWetBulbSup) / 2)
      else
        match fuel with
        | 0 => .error .convergence
        | fuel + 1 =>
          match GetHumRatioFromTWetBulb u TDryBulb ((TWetBulbInf + TWetBulbSup) / 2) Pressure with
          | .error e => .error e
          | .ok Wstar =>
            if BoundedHumRatio < Wstar then
              wetBulbLoop u TDryBulb BoundedHumRatio Pressure fuel
                TWetBulbInf ((TWetBulbInf + TWetBulbSup) / 2)
            else
              wetBulbLoop u TDryBulb BoundedHumRatio Pressure fuel
                ((TWetBulbInf + TWetBulbSup) / 2) TWetBulbSup := by
  cases fuel <;> rfl

theorem wetBulbLoop_ok_mem (u : UnitSystem) (TDryBulb BoundedHumRatio Pressure : ℝ) :
    ∀ fuel TWetBulbInf TWetBulbSup, TWetBulbInf ≤ TWetBulbSup →
      onOk (wetBulbLoop u TDryBulb BoundedHumRatio Pressure fuel TWetBulbInf TWetBulbSup)
        (fun r => TWetBulbInf ≤ r ∧ r ≤ TWetBulbSup) := by
  intro fuel
  induction fuel with
  | zero =>
    intro inf sup hle
    rw [wetBulbLoop_eq]
    split
    · exact onOk_ok ⟨by linarith, by linarith⟩
    · exact onOk_error
  | succ n ih =>
    intro inf sup hle
    rw [wetBulbLoop_eq]
    split
    · exact onOk_ok ⟨by linarith, by linarith⟩
    · cases hw : GetHumRatioFromTWetBulb u TDryBulb ((inf + sup) / 2) Pressure with
      | error e => dsimp only; exact onOk_error
      | ok Wstar =>
        dsimp only
        split
        · have h2 := ih inf ((inf + sup) / 2) (by linarith)
          cases hr : wetBulbLoop u TDryBulb BoundedHumRatio Pressure n inf ((inf + sup) / 2) with
          | error e => exact onOk_error
          | ok r =>
            rw [hr] at h2
            exact onOk_ok ⟨h2.1, by have := h2.2; linarith⟩
        · have h2 := ih ((inf + sup) / 2) sup (by linarith)
          cases hr : wetBulbLoop u TDryBulb BoundedHumRatio Pressure n ((inf + sup) / 2) sup with
          | error e => exact onOk_error
          | ok r =>
            rw [hr] at h2
            exact onOk_ok ⟨by have := h2.1; linarith, h2.2⟩

/-- C5: in the bisection loop of `GetTWetBulbFromHumRatio`, the midpoint guess
always lies in the current bracket and each bracket update halves the width
while staying inside the current bracket; any value returned by the loop lies
within the bracket it was started from, and the wet-bulb temperature finally
returned never exceeds the dry-bulb temperature (the upper end of the initial
bracket), without any final clamping in the code. -/
theorem bisection_bracket_invariant (u : UnitSystem)
    (TDryBulb BoundedHumRatio Pressure HumRatio TWetBulbInf TWetBulbSup : ℝ) (fuel : ℕ)
    (h : TWetBulbInf ≤ TWetBulbSup) :
    (TWetBulbInf ≤ (TWetBulbInf + TWetBulbSup) / 2 ∧
      (TWetBulbInf + TWetBulbSup) / 2 ≤ TWetBulbSup ∧
      TWetBulbSup - (TWetBulbInf + TWetBulbSup) / 2 = (TWetBulbSup - TWetBulbInf) / 2 ∧
      (TWetBulbInf + TWetBulbSup) / 2 - TWetBulbInf = (TWetBulbSup - TWetBulbInf) / 2) ∧
    onOk (wetBulbLoop u TDryBulb BoundedHumRatio Pressure fuel TWetBulbInf TWetBulbSup)
      (fun r => TWetBulbInf ≤ r ∧ r ≤ TWetBulbSup) ∧
    onOk (GetTWetBulbFromHumRatio u TDryBulb HumRatio Pressure) (fun r => r ≤ TDryBulb) := by
  refine ⟨⟨by linarith, by linarith, by ring, by ring⟩,
    wetBulbLoop_ok_mem u TDryBulb BoundedHumRatio Pressure fuel TWetBulbInf TWetBulbSup h, ?_⟩
  unfold GetTWetBulbFromHumRatio
  split
  · dsimp only
    have hdle := getTDewPointFromHumRatio_ok_le u TDryBulb (max HumRatio minHumRatio) Pressure
    cases hd : GetTDewPointFromHumRatio u TDryBulb (max HumRatio minHumRatio) Pressure with
    | error e => exact onOk_error
    | ok TDewPoint =>
      dsimp only
      rw [hd] at hdle
      have hmem := wetBulbLoop_ok_mem u TDryBulb (max HumRatio minHumRatio) Pressure
        MAX_ITER_COUNT TDewPoint TDryBulb hdle
      cases hr : wetBulbLoop u TDryBulb (max HumRatio minHumRatio) Pressure
          MAX_ITER_COUNT TDewPoint TDryBulb with
      | error e => exact onOk_error
      | ok r => rw [hr] at hmem; exact onOk_ok hmem.2
  · exact onOk_error

/-- Witness for C5 at a concrete bracket. -/
theorem bisection_bracket_invariant_witness :
    ((0:ℝ) ≤ 1) ∧
    (((0:ℝ) ≤ ((0:ℝ) + 1) / 2 ∧ ((0:ℝ) + 1) / 2 ≤ 1 ∧
      (1:ℝ) - ((0:ℝ) + 1) / 2 = ((1:ℝ) - 0) / 2 ∧
      ((0:ℝ) + 1) / 2 - 0 = ((1:ℝ) - 0) / 2) ∧
     onOk (wetBulbLoop .SI 30 0.01 101325 4 0 1) (fun r => (0:ℝ) ≤ r ∧ r ≤ 1) ∧
     onOk (GetTWetBulbFromHumRatio .SI 30 0.005 101325) (fun r => r ≤ 30)) :=
  ⟨by norm_num, bisection_bracket_invariant .SI 30 0.01 101325 0.005 0 1 4 (by norm_num)⟩

theorem dewPointLoop_ne_tempError (u : UnitSystem) (lnVP : ℝ) :
    ∀ fuel t, boundLo u ≤ t → t ≤ boundHi u →
      dewPointLoop u lnVP fuel t ≠ .error .tempOutOfRange := by
  intro fuel
  induction fuel with
  | zero => intro t h1 h2; rw [dewPointLoop_zero]; simp
  | succ n ih =>
    intro t h1 h2
    rw [dewPointLoop_succ]
    have hs : GetSatVapPres u t = .ok (satVapPresFormula u t) := by
      unfold GetSatVapPres; rw [if_pos ⟨h1, h2⟩]
    rw [hs]
    dsimp only
    split
    · simp
    · exact ih _ (newtonNext_mem u lnVP _).1 (newtonNext_mem u lnVP _).2

/-- C10: if the supplied dry-bulb temperature (the initial Newton guess) is
inside the correlation validity bounds, the dew-point solver never takes the
out-of-range temperature error branch of `GetSatVapPres`: every iterate handed
to `GetSatVapPres` and `dLnPws_` is in bounds, because the initial guess is
`TDryBulb` and every subsequent guess is clamped into the bounds. -/
theorem newton_iterates_stay_in_bounds (u : UnitSystem) (TDryBulb VapPres lnVP t : ℝ)
    (fuel : ℕ) (ht1 : boundLo u ≤ t) (ht2 : t ≤ boundHi u)
    (hTd1 : boundLo u ≤ TDryBulb) (hTd2 : TDryBulb ≤ boundHi u) :
    dewPointLoop u lnVP fuel t ≠ .error .tempOutOfRange ∧
    GetTDewPointFromVapPres u TDryBulb VapPres ≠ .error .tempOutOfRange := by
  refine ⟨dewPointLoop_ne_tempError u lnVP fuel t ht1 ht2, ?_⟩
  unfold GetTDewPointFromVapPres
  split
  · cases hs : dewPointLoop u (Real.log VapPres) MAX_ITER_COUNT TDryBulb with
    | error e =>
      intro hcontra
      have he : e = PsyError.tempOutOfRange := by
        have := congrArg (fun x => x) hcontra
        exact Except.error.inj hcontra
      rw [he] at hs
      exact dewPointLoop_ne_tempError u (Real.log VapPres) MAX_ITER_COUNT TDryBulb hTd1 hTd2 hs
    | ok r => simp
  · simp

/-- Witness for C10 at a concrete in-bounds input. -/
theorem newton_iterates_stay_in_bounds_witness :
    (boundLo .SI ≤ (0:ℝ) ∧ (0:ℝ) ≤ boundHi .SI ∧
     boundLo .SI ≤ (25:ℝ) ∧ (25:ℝ) ≤ boundHi .SI) ∧
    (dewPointLoop .SI 8 100 0 ≠ .error .tempOutOfRange ∧
     GetTDewPointFromVapPres .SI 25 3000 ≠ .error .tempOutOfRange) :=
  ⟨⟨by norm_num [boundLo], by norm_num [boundHi], by norm_num [boundLo],
    by norm_num [boundHi]⟩,
   newton_iterates_stay_in_bounds .SI 25 3000 8 0 100
    (by norm_num [boundLo]) (by norm_num [boundHi])
    (by norm_num [boundLo]) (by norm_num [boundHi])⟩

theorem wetBulbLoop_no_ok_of_wide (u : UnitSystem) (TDryBulb BoundedHumRatio Pressure : ℝ) :
    ∀ fuel TWetBulbInf TWetBulbSup,
      tolerance u * 2 ^ fuel < TWetBulbSup - TWetBulbInf →
      ∀ r, wetBulbLoop u TDryBulb BoundedHumRatio Pressure fuel TWetBulbInf TWetBulbSup ≠
        .ok r := by
  intro fuel
  induction fuel with
  | zero =>
    intro inf sup hw r
    rw [pow_zero, mul_one] at hw
    rw [wetBulbLoop_eq, if_neg (by linarith)]
    simp
  | succ n ih =>
    intro inf sup hw r
    have htol := tolerance_pos u
    have h1 : (1:ℝ) ≤ 2 ^ (n + 1) := one_le_pow₀ (by norm_num)
    have hns : ¬ (sup - inf ≤ tolerance u) := by
      have := le_mul_of_one_le_right (le_of_lt htol) h1
      linarith
    rw [wetBulbLoop_eq, if_neg hns]
    dsimp only
    cases hg : GetHumRatioFromTWetBulb u TDryBulb ((inf + sup) / 2) Pressure with
    | error e => simp
    | ok Wstar =>
      dsimp only
      rw [pow_succ] at hw
      split
      · exact ih inf ((inf + sup) / 2) (by linarith) r
      · exact ih ((inf + sup) / 2) sup (by linarith) r

/-- C7: both root-finders are bounded computations.  The Newton loop of
`GetTDewPointFromVapPres` fails with a convergence error once its fuel
(100 iterations) is exhausted, and returns as soon as the change between
successive guesses is within the tolerance; the bisection loop of
`GetTWetBulbFromHumRatio` returns the midpoint as soon as the bracket width is
within the tolerance, and can never return a value (only fail) while the
width exceeds `tolerance * 2 ^ fuel`, i.e. an unconverged bracket after the
iteration cap yields an error, not an approximation. -/
theorem solvers_bounded (u : UnitSystem)
    (lnVP t TDryBulb BoundedHumRatio Pressure inf1 sup1 inf2 sup2 : ℝ) (fuel : ℕ) :
    (dewPointLoop u lnVP 0 t = .error .convergence) ∧
    (boundLo u ≤ t → t ≤ boundHi u → |newtonNext u lnVP t - t| ≤ tolerance u →
      dewPointLoop u lnVP (fuel + 1) t = .ok (newtonNext u lnVP t)) ∧
    (sup1 - inf1 ≤ tolerance u →
      wetBulbLoop u TDryBulb BoundedHumRatio Pressure fuel inf1 sup1 =
        .ok ((inf1 + sup1) / 2)) ∧
    (tolerance u * 2 ^ fuel < sup2 - inf2 →
      ∀ r, wetBulbLoop u TDryBulb BoundedHumRatio Pressure fuel inf2 sup2 ≠ .ok r) := by
  refine ⟨dewPointLoop_zero u lnVP t, ?_, ?_, ?_⟩
  · intro h1 h2 hconv
    rw [dewPointLoop_succ]
    have hs : GetSatVapPres u t = .ok (satVapPresFormula u t) := by
      unfold GetSatVapPres; rw [if_pos ⟨h1, h2⟩]
    rw [hs]
    dsimp only
    rw [if_pos hconv]
  · intro hw
    rw [wetBulbLoop_eq, if_pos hw]
  · exact wetBulbLoop_no_ok_of_wide u TDryBulb BoundedHumRatio Pressure fuel inf2 sup2

/-- Witness for C7 at concrete inputs (the conjunct hypotheses are discharged
at a fixed point where the Newton step is exactly zero). -/
theorem solvers_bounded_witness :
    (dewPointLoop .SI (LnPws .SI 25) 0 25 = .error .convergence) ∧
    (dewPointLoop .SI (LnPws .SI 25) (3 + 1) 25 = .ok (newtonNext .SI (LnPws .SI 25) 25)) ∧
    (wetBulbLoop .SI 30 0.01 101325 3 10 10.0005 = .ok ((10 + 10.0005) / 2)) ∧
    (∀ r, wetBulbLoop .SI 30 0.01 101325 3 0 1 ≠ .ok r) := by
  obtain ⟨h1, h2, h3, h4⟩ :=
    solvers_bounded .SI (LnPws .SI 25) 25 30 0.01 101325 10 10.0005 0 1 3
  have h25 : newtonNext .SI (LnPws .SI 25) 25 = 25 := by
    unfold newtonNext satVapPresFormula
    rw [Real.log_exp, sub_self, zero_div, sub_zero]
    rw [max_eq_left (by norm_num [boundLo]), min_eq_left (by norm_num [boundHi])]
  refine ⟨h1, h2 (by norm_num [boundLo]) (by norm_num [boundHi]) ?_,
    h3 (by norm_num [tolerance]), h4 (by norm_num [tolerance])⟩
  rw [h25]
  norm_num [tolerance]

/-- C9: every embedded humidity-ratio-producing function returns a value at
least `MIN_HUM_RATIO = 1e-7`, which is strictly positive, so a humidity ratio
is never returned as zero. -/
theorem humidity_ratio_floor (u : UnitSystem) (TDryBulb TWetBulb VapPres Pressure : ℝ) :
    0 < minHumRatio ∧
    onOk (GetHumRatioFromVapPres VapPres Pressure) (fun w => minHumRatio ≤ w) ∧
    onOk (GetSatHumRatio u TDryBulb Pressure) (fun w => minHumRatio ≤ w) ∧
    onOk (GetHumRatioFromTWetBulb u TDryBulb TWetBulb Pressure) (fun w => minHumRatio ≤ w) := by
  refine ⟨by norm_num [minHumRatio], ?_, ?_, ?_⟩
  · unfold GetHumRatioFromVapPres
    split
    · exact onOk_ok (le_max_right _ _)
    · exact onOk_error
  · unfold GetSatHumRatio
    cases hs : GetSatVapPres u TDryBulb with
    | error e => exact onOk_error
    | ok p => exact onOk_ok (le_max_right _ _)
  · unfold GetHumRatioFromTWetBulb
    split
    · cases hs : GetSatHumRatio u TWetBulb Pressure with
      | error e => exact onOk_error
      | ok Wsstar => exact onOk_ok (le_max_right _ _)
    · exact onOk_error

theorem GetSatVapPres_error_eq (u : UnitSystem) (t : ℝ) {e : PsyError}
    (h : GetSatVapPres u t = .error e) : e = .tempOutOfRange := by
  unfold GetSatVapPres at h
  split at h
  · exact absurd h (by simp)
  · exact (Except.error.inj h).symm

theorem dewPointLoop_ne_negHum (u : UnitSystem) (lnVP : ℝ) :
    ∀ fuel t, dewPointLoop u lnVP fuel t ≠ .error .negHumRatio := by
  intro fuel
  induction fuel with
  | zero => intro t; rw [dewPointLoop_zero]; simp
  | succ n ih =>
    intro t
    rw [dewPointLoop_succ]
    cases hs : GetSatVapPres u t with
    | error e => rw [GetSatVapPres_error_eq u t hs]; simp
    | ok p =>
      dsimp only
      split
      · simp
      · exact ih _

theorem getTDewPointFromVapPres_ne_negHum (u : UnitSystem) (TDryBulb VapPres : ℝ) :
    GetTDewPointFromVapPres u TDryBulb VapPres ≠ .error .negHumRatio := by
  unfold GetTDewPointFromVapPres
  split
  · cases hs : dewPointLoop u (Real.log VapPres) MAX_ITER_COUNT TDryBulb with
    | error e =>
      intro hcontra
      rw [Except.error.inj hcontra] at hs
      exact dewPointLoop_ne_negHum u (Real.log VapPres) MAX_ITER_COUNT TDryBulb hs
    | ok r => simp
  · simp

theorem getTDewPointFromHumRatio_ne_negHum (u : UnitSystem) (TDryBulb HumRatio Pressure : ℝ)
    (hw : 0 ≤ HumRatio) :
    GetTDewPointFromHumRatio u TDryBulb HumRatio Pressure ≠ .error .negHumRatio := by
  unfold GetTDewPointFromHumRatio GetVapPresFromHumRatio
  rw [if_pos hw, if_pos hw]
  exact getTDewPointFromVapPres_ne_negHum u TDryBulb _

theorem GetSatHumRatio_error_eq (u : UnitSystem) (t P : ℝ) {e : PsyError}
    (h : GetSatHumRatio u t P = .error e) : e = .tempOutOfRange := by
  unfold GetSatHumRatio at h
  cases hs : GetSatVapPres u t with
  | error e2 =>
    rw [hs] at h
    rw [← Except.error.inj h]
    exact GetSatVapPres_error_eq u t hs
  | ok p => rw [hs] at h; exact absurd h (by simp)

theorem getHumRatioFromTWetBulb_ne_negHum (u : UnitSystem) (TDryBulb TWetBulb Pressure : ℝ) :
    GetHumRatioFromTWetBulb u TDryBulb TWetBulb Pressure ≠ .error .negHumRatio := by
  unfold GetHumRatioFromTWetBulb
  split
  · cases hs : GetSatHumRatio u TWetBulb Pressure with
    | error e => rw [GetSatHumRatio_error_eq u TWetBulb Pressure hs]; simp
    | ok Wsstar => simp
  · simp

theorem wetBulbLoop_ne_negHum (u : UnitSystem) (TDryBulb BoundedHumRatio Pressure : ℝ) :
    ∀ fuel TWetBulbInf TWetBulbSup,
      wetBulbLoop u TDryBulb BoundedHumRatio Pressure fuel TWetBulbInf TWetBulbSup ≠
        .error .negHumRatio := by
  intro fuel
  induction fuel with
  | zero =>
    intro inf sup
    rw [wetBulbLoop_eq]
    split
    · simp
    · simp
  | succ n ih =>
    intro inf sup
    rw [wetBulbLoop_eq]
    split
    · simp
    · cases hg : GetHumRatioFromTWetBulb u TDryBulb ((inf + sup) / 2) Pressure with
      | error e =>
        dsimp only
        intro hcontra
        rw [Except.error.inj hcontra] at hg
        exact getHumRatioFromTWetBulb_ne_negHum u TDryBulb _ Pressure hg
      | ok Wstar =>
        dsimp only
        split
        · exact ih _ _
        · exact ih _ _

theorem getTWetBulbFromHumRatio_ne_negHum (u : UnitSystem) (TDryBulb HumRatio Pressure : ℝ)
    (hw : 0 ≤ HumRatio) :
    GetTWetBulbFromHumRatio u TDryBulb HumRatio Pressure ≠ .error .negHumRatio := by
  unfold GetTWetBulbFromHumRatio
  rw [if_pos hw]
  dsimp only
  cases hd : GetTDewPointFromHumRatio u TDryBulb (max HumRatio minHumRatio) Pressure with
  | error e =>
    intro hcontra
    rw [Except.error.inj hcontra] at hd
    exact getTDewPointFromHumRatio_ne_negHum u TDryBulb _ Pressure
      (le_max_of_le_right (by norm_num [minHumRatio])) hd
  | ok TDewPoint => exact wetBulbLoop_ne_negHum u TDryBulb _ Pressure _ _ _

/-- Counterexample to C8: a humidity ratio of exactly zero is not rejected at
the call boundary of either solver entry point; it passes the
`HumRatio >= 0` assertion, is clamped to `MIN_HUM_RATIO`, and is processed by
the solver exactly as the clamped value would be. -/
theorem zero_humRatio_not_rejected :
    GetTWetBulbFromHumRatio .SI 25 0 101325 ≠ .error .negHumRatio ∧
    GetTDewPointFromHumRatio .SI 25 0 101325 ≠ .error .negHumRatio ∧
    GetTWetBulbFromHumRatio .SI 25 0 101325 =
      GetTWetBulbFromHumRatio .SI 25 minHumRatio 101325 := by
  refine ⟨getTWetBulbFromHumRatio_ne_negHum .SI 25 0 101325 le_rfl,
    getTDewPointFromHumRatio_ne_negHum .SI 25 0 101325 le_rfl, ?_⟩
  unfold GetTWetBulbFromHumRatio
  rw [if_pos (le_refl (0:ℝ)), if_pos (by norm_num [minHumRatio] : (0:ℝ) ≤ minHumRatio)]
  rw [max_eq_right (by norm_num [minHumRatio] : (0:ℝ) ≤ minHumRatio), max_self]

/-- C8 (amended): a strictly negative humidity ratio passed to either solver
entry point is rejected at the call boundary as a precondition violation; a
humidity ratio of exactly zero passes the boundary check, is clamped up to
`MIN_HUM_RATIO`, and is processed by the solver identically to the clamped
value. -/
theorem neg_humRatio_rejected (u : UnitSystem) (TDryBulb Pressure HumRatio : ℝ)
    (hw : HumRatio < 0) :
    GetTWetBulbFromHumRatio u TDryBulb HumRatio Pressure = .error .negHumRatio ∧
    GetTDewPointFromHumRatio u TDryBulb HumRatio Pressure = .error .negHumRatio ∧
    GetTWetBulbFromHumRatio u TDryBulb 0 Pressure =
      GetTWetBulbFromHumRatio u TDryBulb minHumRatio Pressure := by
  refine ⟨?_, ?_, ?_⟩
  · unfold GetTWetBulbFromHumRatio
    rw [if_neg (not_le.mpr hw)]
  · unfold GetTDewPointFromHumRatio
    rw [if_neg (not_le.mpr hw)]
  · unfold GetTWetBulbFromHumRatio
    rw [if_pos (le_refl (0:ℝ)), if_pos (by norm_num [minHumRatio] : (0:ℝ) ≤ minHumRatio)]
    rw [max_eq_right (by norm_num [minHumRatio] : (0:ℝ) ≤ minHumRatio), max_self]

/-- Witness for the amended C8 at a concrete negative humidity ratio. -/
theorem neg_humRatio_rejected_witness :
    ((-1:ℝ) < 0) ∧
    (GetTWetBulbFromHumRatio .SI 25 (-1) 101325 = .error .negHumRatio ∧
     GetTDewPointFromHumRatio .SI 25 (-1) 101325 = .error .negHumRatio ∧
     GetTWetBulbFromHumRatio .SI 25 0 101325 =
       GetTWetBulbFromHumRatio .SI 25 minHumRatio 101325) :=
  ⟨by norm_num, neg_humRatio_rejected .SI 25 101325 (-1) (by norm_num)⟩

theorem absT_pos (u : UnitSystem) (t : ℝ) (h1 : boundLo u ≤ t) : 0 < absT u t := by
  cases u
  · unfold absT GetTRankineFromTFahrenheit ZERO_FAHRENHEIT_AS_RANKINE
    unfold boundLo at h1
    norm_num at h1 ⊢
    linarith
  · unfold absT GetTKelvinFromTCelsius ZERO_CELSIUS_AS_KELVIN
    unfold boundLo at h1
    norm_num at h1 ⊢
    linarith

theorem hasDerivAt_corrShape (c0 c1 c2 c3 c4 c5 c6 k t : ℝ) (hT : t + k ≠ 0) :
    HasDerivAt (fun s => c0 / (s + k) + c1 + c2 * (s + k) + c3 * ((s + k) * (s + k))
        + c4 * (s + k) ^ 3 + c5 * (s + k) ^ 4 + c6 * Real.log (s + k))
      (-c0 / (t + k) ^ 2 + c2 + c3 * (2 * (t + k)) + c4 * (3 * (t + k) ^ 2)
        + c5 * (4 * (t + k) ^ 3) + c6 / (t + k)) t := by
  have h0 : HasDerivAt (fun s : ℝ => s + k) 1 t := (hasDerivAt_id t).add_const k
  have h1 : HasDerivAt (fun s => c0 / (s + k)) (-c0 / (t + k) ^ 2) t := by
    have := (hasDerivAt_const t c0).div h0 hT
    convert this using 1
    ring
  have h2 : HasDerivAt (fun s => c2 * (s + k)) (c2 * 1) t := h0.const_mul c2
  have h3 : HasDerivAt (fun s => c3 * ((s + k) * (s + k)))
      (c3 * (1 * (t + k) + (t + k) * 1)) t := (h0.mul h0).const_mul c3
  have h4 : HasDerivAt (fun s => c4 * (s + k) ^ 3) (c4 * (3 * (t + k) ^ 2 * 1)) t := by
    have := (h0.pow 3).const_mul c4
    norm_num at this
    convert this using 1
    ring
  have h5 : HasDerivAt (fun s => c5 * (s + k) ^ 4) (c5 * (4 * (t + k) ^ 3 * 1)) t := by
    have := (h0.pow 4).const_mul c5
    norm_num at this
    convert this using 1
    ring
  have h6 : HasDerivAt (fun s => c6 * Real.log (s + k)) (c6 * (1 / (t + k))) t :=
    (h0.log hT).const_mul c6
  have hsum := ((((((h1.add (hasDerivAt_const t c1)).add h2).add h3).add h4).add h5).add h6)
  convert hsum using 1
  ring

theorem hasDerivAt_lnPwsBelow (u : UnitSystem) (t : ℝ) (hT : absT u t ≠ 0) :
    HasDerivAt (lnPwsBelow u) (dLnPwsBelow u t) t := by
  cases u
  · have hT' : t + 459.67 ≠ 0 := by
      unfold absT GetTRankineFromTFahrenheit ZERO_FAHRENHEIT_AS_RANKINE at hT
      exact hT
    have key := hasDerivAt_corrShape (-1.0214165e4) (-4.8932428) (-5.3765794e-3)
      1.9202377e-7 3.5575832e-10 (-9.0344688e-14) 4.1635019 459.67 t hT'
    have hfun : lnPwsBelow .IP = (fun s => (-1.0214165e4) / (s + 459.67) + (-4.8932428)
        + (-5.3765794e-3) * (s + 459.67) + 1.9202377e-7 * ((s + 459.67) * (s + 459.67))
        + 3.5575832e-10 * (s + 459.67) ^ 3 + (-9.0344688e-14) * (s + 459.67) ^ 4
        + 4.1635019 * Real.log (s + 459.67)) := by
      funext s
      unfold lnPwsBelow GetTRankineFromTFahrenheit ZERO_FAHRENHEIT_AS_RANKINE
      ring
    rw [hfun]
    convert key using 1
    unfold dLnPwsBelow GetTRankineFromTFahrenheit ZERO_FAHRENHEIT_AS_RANKINE
    ring
  · have hT' : t + 273.15 ≠ 0 := by
      unfold absT GetTKelvinFromTCelsius ZERO_CELSIUS_AS_KELVIN at hT
      exact hT
    have key := hasDerivAt_corrShape (-5.6745359e3) 6.3925247 (-9.677843e-3)
      6.2215701e-7 2.0747825e-9 (-9.484024e-13) 4.1635019 273.15 t hT'
    have hfun : lnPwsBelow .SI = (fun s => (-5.6745359e3) / (s + 273.15) + 6.3925247
        + (-9.677843e-3) * (s + 273.15) + 6.2215701e-7 * ((s + 273.15) * (s + 273.15))
        + 2.0747825e-9 * (s + 273.15) ^ 3 + (-9.484024e-13) * (s + 273.15) ^ 4
        + 4.1635019 * Real.log (s + 273.15)) := by
      funext s
      unfold lnPwsBelow GetTKelvinFromTCelsius ZERO_CELSIUS_AS_KELVIN
      ring
    rw [hfun]
    convert key using 1
    unfold dLnPwsBelow GetTKelvinFromTCelsius ZERO_CELSIUS_AS_KELVIN
    ring

theorem hasDerivAt_lnPwsAbove (u : UnitSystem) (t : ℝ) (hT : absT u t ≠ 0) :
    HasDerivAt (lnPwsAbove u) (dLnPwsAbove u t) t := by
  cases u
  · have hT' : t + 459.67 ≠ 0 := by
      unfold absT GetTRankineFromTFahrenheit ZERO_FAHRENHEIT_AS_RANKINE at hT
      exact hT
    have key := hasDerivAt_corrShape (-1.0440397e4) (-1.1294650e1) (-2.7022355e-2)
      1.2890360e-5 (-2.4780681e-9) 0 6.5459673 459.67 t hT'
    have hfun : lnPwsAbove .IP = (fun s => (-1.0440397e4) / (s + 459.67) + (-1.1294650e1)
        + (-2.7022355e-2) * (s + 459.67) + 1.2890360e-5 * ((s + 459.67) * (s + 459.67))
        + (-2.4780681e-9) * (s + 459.67) ^ 3 + 0 * (s + 459.67) ^ 4
        + 6.5459673 * Real.log (s + 459.67)) := by
      funext s
      unfold lnPwsAbove GetTRankineFromTFahrenheit ZERO_FAHRENHEIT_AS_RANKINE
      ring
    rw [hfun]
    convert key using 1
    unfold dLnPwsAbove GetTRankineFromTFahrenheit ZERO_FAHRENHEIT_AS_RANKINE
    ring
  · have hT' : t + 273.15 ≠ 0 := by
      unfold absT GetTKelvinFromTCelsius ZERO_CELSIUS_AS_KELVIN at hT
      exact hT
    have key := hasDerivAt_corrShape (-5.8002206e3) 1.3914993 (-4.8640239e-2)
      4.1764768e-5 (-1.4452093e-8) 0 6.5459673 273.15 t hT'
    have hfun : lnPwsAbove .SI = (fun s => (-5.8002206e3) / (s + 273.15) + 1.3914993
        + (-4.8640239e-2) * (s + 273.15) + 4.1764768e-5 * ((s + 273.15) * (s + 273.15))
        + (-1.4452093e-8) * (s + 273.15) ^ 3 + 0 * (s + 273.15) ^ 4
        + 6.5459673 * Real.log (s + 273.15)) := by
      funext s
      unfold lnPwsAbove GetTKelvinFromTCelsius ZERO_CELSIUS_AS_KELVIN
      ring
    rw [hfun]
    convert key using 1
    unfold dLnPwsAbove GetTKelvinFromTCelsius ZERO_CELSIUS_AS_KELVIN
    ring

/-- C1: over the valid temperature domain, the saturation-correlation value
and its derivative agree on branch selection -- both select the
below-triple-point regime exactly when the temperature is at most the triple
point (32.018 F in IP, 0.01 C in SI, which differ from the freezing point) --
and `dLnPws_` is the term-by-term analytic derivative of the `LnPws`
expression that `GetSatVapPres` evaluates at the same temperature. -/
theorem satVapPres_deriv_branch_agreement (u : UnitSystem) (t : ℝ)
    (h1 : boundLo u ≤ t) (h2 : t ≤ boundHi u) :
    triplePoint u ≠ freezingPoint u ∧
    (t ≤ triplePoint u →
      LnPws u t = lnPwsBelow u t ∧ dLnPws_ u t = dLnPwsBelow u t ∧
      HasDerivAt (lnPwsBelow u) (dLnPws_ u t) t) ∧
    (triplePoint u < t →
      LnPws u t = lnPwsAbove u t ∧ dLnPws_ u t = dLnPwsAbove u t ∧
      HasDerivAt (lnPwsAbove u) (dLnPws_ u t) t) := by
  have hT := (absT_pos u t h1).ne'
  refine ⟨?_, ?_, ?_⟩
  · cases u <;>
      norm_num [triplePoint, freezingPoint, TRIPLE_POINT_WATER_IP, FREEZING_POINT_WATER_IP,
        TRIPLE_POINT_WATER_SI, FREEZING_POINT_WATER_SI]
  · intro hbelow
    have hv : LnPws u t = lnPwsBelow u t := by unfold LnPws; rw [if_pos hbelow]
    have hd : dLnPws_ u t = dLnPwsBelow u t := by unfold dLnPws_; rw [if_pos hbelow]
    exact ⟨hv, hd, hd ▸ hasDerivAt_lnPwsBelow u t hT⟩
  · intro habove
    have hv : LnPws u t = lnPwsAbove u t := by unfold LnPws; rw [if_neg (not_le.mpr habove)]
    have hd : dLnPws_ u t = dLnPwsAbove u t := by unfold dLnPws_; rw [if_neg (not_le.mpr habove)]
    exact ⟨hv, hd, hd ▸ hasDerivAt_lnPwsAbove u t hT⟩

/-- Witness for C1 at a concrete in-bounds temperature. -/
theorem satVapPres_deriv_branch_agreement_witness :
    (boundLo .SI ≤ (25:ℝ) ∧ (25:ℝ) ≤ boundHi .SI) ∧
    (triplePoint .SI ≠ freezingPoint .SI ∧
     ((25:ℝ) ≤ triplePoint .SI →
       LnPws .SI 25 = lnPwsBelow .SI 25 ∧ dLnPws_ .SI 25 = dLnPwsBelow .SI 25 ∧
       HasDerivAt (lnPwsBelow .SI) (dLnPws_ .SI 25) 25) ∧
     (triplePoint .SI < (25:ℝ) →
       LnPws .SI 25 = lnPwsAbove .SI 25 ∧ dLnPws_ .SI 25 = dLnPwsAbove .SI 25 ∧
       HasDerivAt (lnPwsAbove .SI) (dLnPws_ .SI 25) 25)) :=
  ⟨⟨by norm_num [boundLo], by norm_num [boundHi]⟩,
   satVapPres_deriv_branch_agreement .SI 25 (by norm_num [boundLo]) (by norm_num [boundHi])⟩

theorem dLnPwsBelow_pos (u : UnitSystem) (t : ℝ)
    (h1 : boundLo u ≤ t) (h2 : t ≤ triplePoint u) : 0 < dLnPwsBelow u t := by
  cases u
  · simp only [boundLo] at h1
    simp only [triplePoint, TRIPLE_POINT_WATER_IP] at h2
    simp only [dLnPwsBelow, GetTRankineFromTFahrenheit, ZERO_FAHRENHEIT_AS_RANKINE]
    set T := t + 459.67 with hTdef
    clear_value T
    have hTlo : 311.67 ≤ T := by rw [hTdef]; linarith
    have hThi : T ≤ 491.688 := by rw [hTdef]; linarith
    have hTpos : (0:ℝ) < T := by linarith
    have hT2 : T ^ 2 ≤ 491.688 ^ 2 := pow_le_pow_left₀ hTpos.le hThi 2
    have hT3 : T ^ 3 ≤ 491.688 ^ 3 := pow_le_pow_left₀ hTpos.le hThi 3
    have f1 : (1.0214165e4 : ℝ) / 491.688 ^ 2 ≤ 1.0214165e4 / T ^ 2 :=
      div_le_div_of_nonneg_left (by norm_num) (by positivity) hT2
    have f2 : (4.1635019 : ℝ) / 491.688 ≤ 4.1635019 / T :=
      div_le_div_of_nonneg_left (by norm_num) hTpos hThi
    have hsq : (0:ℝ) ≤ T ^ 2 := sq_nonneg T
    norm_num at f1 f2 hT3
    linarith
  · simp only [boundLo] at h1
    simp only [triplePoint, TRIPLE_POINT_WATER_SI] at h2
    simp only [dLnPwsBelow, GetTKelvinFromTCelsius, ZERO_CELSIUS_AS_KELVIN]
    set T := t + 273.15 with hTdef
    clear_value T
    have hTlo : 173.15 ≤ T := by rw [hTdef]; linarith
    have hThi : T ≤ 273.16 := by rw [hTdef]; linarith
    have hTpos : (0:ℝ) < T := by linarith
    have hT2 : T ^ 2 ≤ 273.16 ^ 2 := pow_le_pow_left₀ hTpos.le hThi 2
    have hT3 : T ^ 3 ≤ 273.16 ^ 3 := pow_le_pow_left₀ hTpos.le hThi 3
    have f1 : (5.6745359e3 : ℝ) / 273.16 ^ 2 ≤ 5.6745359e3 / T ^ 2 :=
      div_le_div_of_nonneg_left (by norm_num) (by positivity) hT2
    have f2 : (4.1635019 : ℝ) / 273.16 ≤ 4.1635019 / T :=
      div_le_div_of_nonneg_left (by norm_num) hTpos hThi
    have hsq : (0:ℝ) ≤ T ^ 2 := sq_nonneg T
    norm_num at f1 f2 hT3
    linarith

theorem dLnPwsAbove_pos (u : UnitSystem) (t : ℝ)
    (h1 : triplePoint u ≤ t) (h2 : t ≤ boundHi u) : 0 < dLnPwsAbove u t := by
  cases u
  · simp only [triplePoint, TRIPLE_POINT_WATER_IP] at h1
    simp only [boundHi] at h2
    simp only [dLnPwsAbove, GetTRankineFromTFahrenheit, ZERO_FAHRENHEIT_AS_RANKINE]
    set T := t + 459.67 with hTdef
    clear_value T
    have hTlo : 491.688 ≤ T := by rw [hTdef]; linarith
    have hThi : T ≤ 851.67 := by rw [hTdef]; linarith
    have hTpos : (0:ℝ) < T := by linarith
    have hT2 : T ^ 2 ≤ 851.67 ^ 2 := pow_le_pow_left₀ hTpos.le hThi 2
    have f1 : (1.0440397e4 : ℝ) / 851.67 ^ 2 ≤ 1.0440397e4 / T ^ 2 :=
      div_le_div_of_nonneg_left (by norm_num) (by positivity) hT2
    have f2 : (6.5459673 : ℝ) / 851.67 ≤ 6.5459673 / T :=
      div_le_div_of_nonneg_left (by norm_num) hTpos hThi
    norm_num at f1 f2 hT2
    linarith
  · simp only [triplePoint, TRIPLE_POINT_WATER_SI] at h1
    simp only [boundHi] at h2
    simp only [dLnPwsAbove, GetTKelvinFromTCelsius, ZERO_CELSIUS_AS_KELVIN]
    set T := t + 273.15 with hTdef
    clear_value T
    have hTlo : 273.16 ≤ T := by rw [hTdef]; linarith
    have hThi : T ≤ 473.15 := by rw [hTdef]; linarith
    have hTpos : (0:ℝ) < T := by linarith
    have hT2 : T ^ 2 ≤ 473.15 ^ 2 := pow_le_pow_left₀ hTpos.le hThi 2
    have f1 : (5.8002206e3 : ℝ) / 473.15 ^ 2 ≤ 5.8002206e3 / T ^ 2 :=
      div_le_div_of_nonneg_left (by norm_num) (by positivity) hT2
    have f2 : (6.5459673 : ℝ) / 473.15 ≤ 6.5459673 / T :=
      div_le_div_of_nonneg_left (by norm_num) hTpos hThi
    norm_num at f1 f2 hT2
    linarith

theorem boundLo_le_triplePoint (u : UnitSystem) : boundLo u ≤ triplePoint u := by
  cases u <;> norm_num [boundLo, triplePoint, TRIPLE_POINT_WATER_IP, TRIPLE_POINT_WATER_SI]

theorem triplePoint_le_boundHi (u : UnitSystem) : triplePoint u ≤ boundHi u := by
  cases u <;> norm_num [boundHi, triplePoint, TRIPLE_POINT_WATER_IP, TRIPLE_POINT_WATER_SI]

theorem lnPwsBelow_strictMonoOn (u : UnitSystem) :
    StrictMonoOn (lnPwsBelow u) (Set.Icc (boundLo u) (triplePoint u)) := by
  apply strictMonoOn_of_deriv_pos (convex_Icc _ _)
  · intro x hx
    have hT : absT u x ≠ 0 := (absT_pos u x hx.1).ne'
    exact (hasDerivAt_lnPwsBelow u x hT).continuousAt.continuousWithinAt
  · intro x hx
    rw [interior_Icc] at hx
    have hT : absT u x ≠ 0 := (absT_pos u x hx.1.le).ne'
    rw [(hasDerivAt_lnPwsBelow u x hT).deriv]
    exact dLnPwsBelow_pos u x hx.1.le hx.2.le

theorem lnPwsAbove_strictMonoOn (u : UnitSystem) :
    StrictMonoOn (lnPwsAbove u) (Set.Icc (triplePoint u) (boundHi u)) := by
  apply strictMonoOn_of_deriv_pos (convex_Icc _ _)
  · intro x hx
    have hT : absT u x ≠ 0 :=
      (absT_pos u x (le_trans (boundLo_le_triplePoint u) hx.1)).ne'
    exact (hasDerivAt_lnPwsAbove u x hT).continuousAt.continuousWithinAt
  · intro x hx
    rw [interior_Icc] at hx
    have hT : absT u x ≠ 0 :=
      (absT_pos u x (le_trans (boundLo_le_triplePoint u) hx.1.le)).ne'
    rw [(hasDerivAt_lnPwsAbove u x hT).deriv]
    exact dLnPwsAbove_pos u x hx.1.le hx.2.le

set_option maxHeartbeats 2000000 in
theorem exp_cert_SI : Real.exp 5.6100577031 < 273.16 := by
  have hsplit : (5.6100577031:ℝ) = 5 + 0.6100577031 := by norm_num
  rw [hsplit, Real.exp_add]
  have e5 : Real.exp 5 ≤ 2.7182818286 ^ 5 := by
    have h1 : Real.exp (5:ℝ) = Real.exp 1 ^ 5 := by
      rw [← Real.exp_nat_mul]; norm_num
    rw [h1]
    exact pow_le_pow_left₀ (Real.exp_pos 1).le Real.exp_one_lt_d9.le 5
  have ex : Real.exp 0.6100577031 ≤
      (∑ m ∈ Finset.range 14, (0.6100577031:ℝ) ^ m / m.factorial)
        + 0.6100577031 ^ 14 * 15 / (Nat.factorial 14 * 14) := by
    have h := Real.exp_bound' (by norm_num : (0:ℝ) ≤ 0.6100577031)
      (by norm_num : (0.6100577031:ℝ) ≤ 1) (by norm_num : 0 < 14)
    convert h using 2
    norm_num
  calc Real.exp 5 * Real.exp 0.6100577031
      ≤ 2.7182818286 ^ 5 * ((∑ m ∈ Finset.range 14, (0.6100577031:ℝ) ^ m / m.factorial)
        + 0.6100577031 ^ 14 * 15 / (Nat.factorial 14 * 14)) :=
        mul_le_mul e5 ex (Real.exp_pos _).le (by norm_num)
    _ < 273.16 := by
        norm_num [Finset.sum_range_succ, Nat.factorial]

set_option maxHeartbeats 2000000 in
theorem exp_cert_IP : Real.exp 6.19784432 < 491.688 := by
  have hsplit : (6.19784432:ℝ) = 6 + 0.19784432 := by norm_num
  rw [hsplit, Real.exp_add]
  have e6 : Real.exp 6 ≤ 2.7182818286 ^ 6 := by
    have h1 : Real.exp (6:ℝ) = Real.exp 1 ^ 6 := by
      rw [← Real.exp_nat_mul]; norm_num
    rw [h1]
    exact pow_le_pow_left₀ (Real.exp_pos 1).le Real.exp_one_lt_d9.le 6
  have ex : Real.exp 0.19784432 ≤
      (∑ m ∈ Finset.range 12, (0.19784432:ℝ) ^ m / m.factorial)
        + 0.19784432 ^ 12 * 13 / (Nat.factorial 12 * 12) := by
    have h := Real.exp_bound' (by norm_num : (0:ℝ) ≤ 0.19784432)
      (by norm_num : (0.19784432:ℝ) ≤ 1) (by norm_num : 0 < 12)
    convert h using 2
    norm_num
  calc Real.exp 6 * Real.exp 0.19784432
      ≤ 2.7182818286 ^ 6 * ((∑ m ∈ Finset.range 12, (0.19784432:ℝ) ^ m / m.factorial)
        + 0.19784432 ^ 12 * 13 / (Nat.factorial 12 * 12)) :=
        mul_le_mul e6 ex (Real.exp_pos _).le (by norm_num)
    _ < 491.688 := by
        norm_num [Finset.sum_range_succ, Nat.factorial]

theorem log_27316_gt : (5.6100577031:ℝ) < Real.log 273.16 :=
  (Real.lt_log_iff_exp_lt (by norm_num)).mpr exp_cert_SI

theorem log_491688_gt : (6.19784432:ℝ) < Real.log 491.688 :=
  (Real.lt_log_iff_exp_lt (by norm_num)).mpr exp_cert_IP

set_option maxHeartbeats 1000000 in
theorem lnPws_jump_pos (u : UnitSystem) :
    lnPwsBelow u (triplePoint u) < lnPwsAbove u (triplePoint u) := by
  cases u
  · simp only [lnPwsBelow, lnPwsAbove, triplePoint, TRIPLE_POINT_WATER_IP,
      GetTRankineFromTFahrenheit, ZERO_FAHRENHEIT_AS_RANKINE]
    have harg : (32.018 + 459.67 : ℝ) = 491.688 := by norm_num
    rw [harg]
    have hlog := log_491688_gt
    set L := Real.log 491.688 with hL
    clear_value L
    norm_num
    linarith
  · simp only [lnPwsBelow, lnPwsAbove, triplePoint, TRIPLE_POINT_WATER_SI,
      GetTKelvinFromTCelsius, ZERO_CELSIUS_AS_KELVIN]
    have harg : (1e-2 + 273.15 : ℝ) = 273.16 := by norm_num
    rw [harg]
    have hlog := log_27316_gt
    set L := Real.log 273.16 with hL
    clear_value L
    norm_num
    linarith

/-- C6: `GetSatVapPres` is strictly increasing in temperature over the full
valid domain of the active unit system, including across the triple-point
branch split (on the whole domain the function succeeds and returns
`exp (LnPws)`). -/
theorem satVapPres_strictly_increasing (u : UnitSystem) (t1 t2 : ℝ)
    (h1 : boundLo u ≤ t1) (h2 : t1 < t2) (h3 : t2 ≤ boundHi u) :
    satVapPresFormula u t1 < satVapPresFormula u t2 ∧
    GetSatVapPres u t1 = .ok (satVapPresFormula u t1) ∧
    GetSatVapPres u t2 = .ok (satVapPresFormula u t2) := by
  have hln : LnPws u t1 < LnPws u t2 := by
    by_cases hc2 : t2 ≤ triplePoint u
    · have hc1 : t1 ≤ triplePoint u := le_trans h2.le hc2
      unfold LnPws
      rw [if_pos hc1, if_pos hc2]
      exact lnPwsBelow_strictMonoOn u ⟨h1, hc1⟩ ⟨le_trans h1 h2.le, hc2⟩ h2
    · push_neg at hc2
      by_cases hc1 : t1 ≤ triplePoint u
      · unfold LnPws
        rw [if_pos hc1, if_neg (not_le.mpr hc2)]
        have hb : lnPwsBelow u t1 ≤ lnPwsBelow u (triplePoint u) := by
          rcases eq_or_lt_of_le hc1 with he | hlt
          · rw [he]
          · exact (lnPwsBelow_strictMonoOn u ⟨h1, hc1⟩
              ⟨boundLo_le_triplePoint u, le_refl _⟩ hlt).le
        have hj := lnPws_jump_pos u
        have ha : lnPwsAbove u (triplePoint u) < lnPwsAbove u t2 :=
          lnPwsAbove_strictMonoOn u ⟨le_refl _, triplePoint_le_boundHi u⟩
            ⟨hc2.le, h3⟩ hc2
        linarith
      · push_neg at hc1
        unfold LnPws
        rw [if_neg (not_le.mpr hc1), if_neg (not_le.mpr (lt_trans hc1 h2))]
        exact lnPwsAbove_strictMonoOn u ⟨hc1.le, le_trans h2.le h3⟩
          ⟨(lt_trans hc1 h2).le, h3⟩ h2
  refine ⟨?_, ?_, ?_⟩
  · unfold satVapPresFormula
    exact Real.exp_lt_exp.mpr hln
  · unfold GetSatVapPres
    rw [if_pos ⟨h1, le_trans h2.le h3⟩]
  · unfold GetSatVapPres
    rw [if_pos ⟨le_trans h1 h2.le, h3⟩]

/-- Witness for C6 at a concrete pair of temperatures straddling the
triple point. -/
theorem satVapPres_strictly_increasing_witness :
    (boundLo .SI ≤ (0:ℝ) ∧ (0:ℝ) < 0.02 ∧ (0.02:ℝ) ≤ boundHi .SI) ∧
    (satVapPresFormula .SI 0 < satVapPresFormula .SI 0.02 ∧
     GetSatVapPres .SI 0 = .ok (satVapPresFormula .SI 0) ∧
     GetSatVapPres .SI 0.02 = .ok (satVapPresFormula .SI 0.02)) :=
  ⟨⟨by norm_num [boundLo], by norm_num, by norm_num [boundHi]⟩,
   satVapPres_strictly_increasing .SI 0 0.02 (by norm_num [boundLo]) (by norm_num)
     (by norm_num [boundHi])⟩

end

end Psychro
